import Mathlib

/-!
Formal model of the map-visualisation ingestion and density pipeline
(`src/utils/densityCalculator.ts`: classes `DensityCalculator` and `FileLoader`),
with theorems about its documented behaviour.

JavaScript numbers are modelled as exact rationals extended with `NaN` and the
two infinities where the distinction is observable (`ExtNum`); purely numeric
code (the density grid) is modelled over plain rationals.  JavaScript runtime
values flowing through the loaders are modelled by the inductive `JsVal`
(`undefined`, `null`, booleans, numbers, strings, arrays, objects), with
property access returning `undefined` for missing keys, exactly as in JS.
`JSON.parse` and `fetch` are platform primitives, not repository code: their
outcomes are passed to the modelled functions as explicit arguments
(`Option JsVal`, `FetchOutcome`).
-/

namespace MapVis

/-- A JavaScript `number`: an exact rational, `NaN`, or an infinity. -/
inductive ExtNum where
  | nan
  | posInf
  | negInf
  | fin (q : ℚ)
deriving DecidableEq

/-- JS `isNaN` on an already-numeric value. -/
def ExtNum.isNaN : ExtNum → Bool
  | .nan => true
  | _ => false

/-- JS `<=` on numbers: any comparison involving `NaN` is false. -/
def ExtNum.jsLe : ExtNum → ExtNum → Bool
  | .nan, _ => false
  | _, .nan => false
  | .negInf, _ => true
  | _, .negInf => false
  | _, .posInf => true
  | .posInf, _ => false
  | .fin a, .fin b => decide (a ≤ b)

/-- JS `>=` on numbers. -/
def ExtNum.jsGe (a b : ExtNum) : Bool := ExtNum.jsLe b a

/-- JS truthiness of a number: `0` and `NaN` are falsy, everything else truthy. -/
def ExtNum.truthy : ExtNum → Bool
  | .nan => false
  | .posInf => true
  | .negInf => true
  | .fin q => decide (q ≠ 0)

/-- A runtime coordinate pair `{lat, lng}` with numeric components, as handed
to `FileLoader.validateCoordinate`. -/
structure CoordN where
  lat : ExtNum
  lng : ExtNum
deriving DecidableEq

/-- `FileLoader.validateCoordinate`: range checks with JS comparison semantics
followed by the two `isNaN` guards (densityCalculator.ts lines 620-629). -/
def validateCoordinate (coord : CoordN) : Bool :=
  coord.lat.jsGe (.fin (-90)) &&
  coord.lat.jsLe (.fin 90) &&
  coord.lng.jsGe (.fin (-180)) &&
  coord.lng.jsLe (.fin 180) &&
  !coord.lat.isNaN &&
  !coord.lng.isNaN

/-! ## JavaScript runtime values

Values produced by `JSON.parse` plus `undefined`, as they flow through
`FileLoader`.  Arrays and object field lists are their own inductives so that
equality stays decidable. -/

mutual
inductive JsVal where
  | undef
  | null
  | bool (b : Bool)
  | num (n : ExtNum)
  | str (s : String)
  | arr (elems : JsList)
  | obj (fields : JsFields)
deriving DecidableEq

inductive JsList where
  | nil
  | cons (hd : JsVal) (tl : JsList)
deriving DecidableEq

inductive JsFields where
  | fnil
  | fcons (key : String) (val : JsVal) (tl : JsFields)
deriving DecidableEq
end

def JsList.toList : JsList → List JsVal
  | .nil => []
  | .cons h t => h :: t.toList

def JsList.ofList : List JsVal → JsList
  | [] => .nil
  | h :: t => .cons h (ofList t)

def JsFields.ofList : List (String × JsVal) → JsFields
  | [] => .fnil
  | (k, v) :: t => .fcons k v (ofList t)

def JsFields.toList : JsFields → List (String × JsVal)
  | .fnil => []
  | .fcons k v t => (k, v) :: t.toList

/-- Shorthand constructor for array literals. -/
def jarr (xs : List JsVal) : JsVal := .arr (JsList.ofList xs)

/-- Shorthand constructor for object literals. -/
def jobj (fs : List (String × JsVal)) : JsVal := .obj (JsFields.ofList fs)

/-- Shorthand constructor for finite number literals. -/
def jnum (q : ℚ) : JsVal := .num (.fin q)

/-- First binding of `key`, `undefined` when missing. -/
def JsFields.get : JsFields → String → JsVal
  | .fnil, _ => .undef
  | .fcons k v t, key => if k = key then v else t.get key

/-- JS property read `v[key]`: `undefined` on a missing key or a non-object. -/
def JsVal.get : JsVal → String → JsVal
  | .obj fs, key => fs.get key
  | _, _ => JsVal.undef

/-- JS truthiness: `undefined`, `null`, `false`, `0`, `NaN` and `""` are falsy;
every other value (including any array or object) is truthy. -/
def JsVal.truthy : JsVal → Bool
  | .undef => false
  | .null => false
  | .bool b => b
  | .num n => n.truthy
  | .str s => decide (s ≠ "")
  | .arr _ => true
  | .obj _ => true

/-- JS `a || b`. -/
def jsOr (a b : JsVal) : JsVal := if a.truthy then a else b

/-- JS strict equality test against `undefined`. -/
def JsVal.isUndef : JsVal → Bool
  | .undef => true
  | _ => false

/-- JS strict equality test `v === s` for a string literal `s`. -/
def JsVal.eqStr : JsVal → String → Bool
  | .str s, t => decide (s = t)
  | _, _ => false

/-- `Array.isArray`. -/
def JsVal.isArr : JsVal → Bool
  | .arr _ => true
  | _ => false

/-- The elements of an array value (empty for non-arrays; used only where
`Array.isArray` has already been checked). -/
def JsVal.asArray : JsVal → List JsVal
  | .arr xs => xs.toList
  | _ => []

/-- JS array index read `v[i]`: `undefined` past the end or on a non-array. -/
def JsVal.idx : JsVal → ℕ → JsVal
  | .arr xs, i => (xs.toList.get? i).getD .undef
  | _, _ => JsVal.undef

/-! ## String primitives

`String.prototype` operations modelled over the character list, so that every
definition reduces inside the kernel.  JS trims a slightly larger Unicode
whitespace class than `Char.isWhitespace`; the difference is irrelevant to the
inputs considered here. -/

/-- JS `String.prototype.trim`. -/
def jsTrim (s : String) : String :=
  String.mk (((s.toList.dropWhile Char.isWhitespace).reverse.dropWhile
    Char.isWhitespace).reverse)

def jsSplitAux (sep : Char) : List Char → List Char → List String
  | [], acc => [String.mk acc.reverse]
  | c :: rest, acc =>
    if c = sep then String.mk acc.reverse :: jsSplitAux sep rest []
    else jsSplitAux sep rest (c :: acc)

/-- JS `String.prototype.split` with a one-character separator.  On the empty
string it returns `[""]`, never the empty list. -/
def jsSplit (s : String) (sep : Char) : List String := jsSplitAux sep s.toList []

/-- JS `String.prototype.toLowerCase` (ASCII, which covers the extensions the
loader compares against). -/
def jsToLower (s : String) : String := String.mk (s.toList.map Char.toLower)

/-! ## Numeric conversions (`parseFloat`, `Number`) -/

def digitsToNat (ds : List Char) : ℕ := ds.foldl (fun a c => 10 * a + (c.toNat - 48)) 0

/-- Scan a decimal mantissa `digits[.digits]`; returns the value, whether any
digit was consumed, and the unconsumed remainder. -/
def scanDecimal (cs : List Char) : ℚ × Bool × List Char :=
  let intDs := cs.takeWhile Char.isDigit
  let rest1 := cs.dropWhile Char.isDigit
  match rest1 with
  | '.' :: rest2 =>
    let fracDs := rest2.takeWhile Char.isDigit
    let rest3 := rest2.dropWhile Char.isDigit
    ((digitsToNat intDs : ℚ) + (digitsToNat fracDs : ℚ) / 10 ^ fracDs.length,
      !(intDs.isEmpty && fracDs.isEmpty), rest3)
  | _ => ((digitsToNat intDs : ℚ), !intDs.isEmpty, rest1)

/-- Scan an optional exponent part `e[+-]digits`; consumed only when at least
one digit follows. -/
def scanExponent (cs : List Char) : ℤ × List Char :=
  match cs with
  | c :: rest =>
    if c = 'e' ∨ c = 'E' then
      let (sign, rest2) : ℤ × List Char :=
        match rest with
        | s :: r2 => if s = '-' then (-1, r2) else if s = '+' then (1, r2) else (1, rest)
        | [] => (1, rest)
      let ds := rest2.takeWhile Char.isDigit
      if ds.isEmpty then (0, cs)
      else (sign * (digitsToNat ds : ℤ), rest2.dropWhile Char.isDigit)
    else (0, cs)
  | [] => (0, [])

def readSign (cs : List Char) : Bool × List Char :=
  match cs with
  | '-' :: r => (true, r)
  | '+' :: r => (false, r)
  | _ => (false, cs)

/-- JS `parseFloat`: skips leading whitespace, then reads the longest numeric
prefix (sign, decimal mantissa, optional exponent, or `Infinity`); `NaN` when
no digit can be read.  Hexadecimal input (which `parseFloat` reads as `0`
followed by junk) is out of scope for the data formats involved. -/
def jsParseFloat (s : String) : ExtNum :=
  let cs := s.toList.dropWhile Char.isWhitespace
  let (neg, cs1) := readSign cs
  if ("Infinity".toList).isPrefixOf cs1 then (if neg then .negInf else .posInf)
  else
    let (m, gotDigits, rest) := scanDecimal cs1
    if gotDigits then
      let (e, _) := scanExponent rest
      .fin ((if neg then -m else m) * 10 ^ e)
    else .nan

/-- JS `Number(string)` (ToNumber on strings): whole-string numeric literal
after trimming; empty string is `0`; anything else is `NaN`.  Hex/octal/binary
literal forms are not modelled (never fed by the loaders). -/
def jsStringToNumber (s : String) : ExtNum :=
  let cs := ((s.toList.dropWhile Char.isWhitespace).reverse.dropWhile
    Char.isWhitespace).reverse
  if cs.isEmpty then .fin 0
  else
    let (neg, cs1) := readSign cs
    if cs1 = "Infinity".toList then (if neg then .negInf else .posInf)
    else
      let (m, gotDigits, rest) := scanDecimal cs1
      if gotDigits then
        let (e, rest2) := scanExponent rest
        if rest2.isEmpty then .fin ((if neg then -m else m) * 10 ^ e) else .nan
      else .nan

/-- JS ToNumber.  `ToPrimitive` on arrays and objects is modelled as `NaN`:
the loader only ever compares primitive coordinate fields numerically. -/
def JsVal.toNumber : JsVal → ExtNum
  | .undef => .nan
  | .null => .fin 0
  | .bool b => .fin (if b then 1 else 0)
  | .num n => n
  | .str s => jsStringToNumber s
  | .arr _ => .nan
  | .obj _ => .nan

/-- `FileLoader.validateCoordinate` applied to a runtime coordinates object:
the JS relational operators and `isNaN` coerce each component with ToNumber. -/
def validateCoordinateJs (coords : JsVal) : Bool :=
  validateCoordinate ⟨(coords.get "lat").toNumber, (coords.get "lng").toNumber⟩

/-! ## String rendering of values (for error messages)

Models JS string interpolation of a value.  Finite numbers are rendered via
the rational `toString`, which differs in digits from JS float formatting but
matches it in information content; no claim inspects message text beyond
counting entries. -/

def ExtNum.display : ExtNum → String
  | .nan => "NaN"
  | .posInf => "Infinity"
  | .negInf => "-Infinity"
  | .fin q => toString q

mutual
def JsVal.display : JsVal → String
  | .undef => "undefined"
  | .null => "null"
  | .bool b => if b then "true" else "false"
  | .num n => n.display
  | .str s => s
  | .arr xs => xs.displayJoin
  | .obj _ => "[object Object]"

def JsList.displayJoin : JsList → String
  | .nil => ""
  | .cons h .nil => h.display
  | .cons h t => h.display ++ "," ++ t.displayJoin
end

/-! ## Loader data model (`FileLoader`)

`Location` keeps each field as the runtime value the source assigns to it,
with `undefined` for a field the source leaves unset. -/

structure Location where
  id : JsVal
  name : JsVal
  coordinates : JsVal
  intensity : JsVal
  metadata : JsVal
deriving DecidableEq

/-- `FileLoadResult.summary`; counters as integers. -/
structure LoadSummary where
  totalRows : ℤ
  validLocations : ℤ
  invalidRows : ℤ
deriving DecidableEq

structure FileLoadResult where
  locations : List Location
  errors : List String
  summary : LoadSummary
deriving DecidableEq

/-- Error text `Invalid coordinates (${lat}, ${lng})` thrown by
`parseLocationObject`. -/
def invalidCoordMsg (coordinates : JsVal) : String :=
  let la := (coordinates.get "lat").display
  let ln := (coordinates.get "lng").display
  s!"Invalid coordinates ({la}, {ln})"

/-- `FileLoader.parseLocationObject` (densityCalculator.ts lines 528-555).
Coordinate shapes are tried in source order: a truthy `coordinates` field,
`lat`/`lng` both not `undefined`, `latitude`/`longitude` both not `undefined`,
then a bare array of length ≥ 2 read in `[lng, lat]` order.  A throw is
modelled as `Except.error` with the thrown message. -/
def parseLocationObject (item : JsVal) (index : ℕ) : Except String Location :=
  let coordsRes : Except String JsVal :=
    if (item.get "coordinates").truthy then
      .ok (item.get "coordinates")
    else if !(item.get "lat").isUndef && !(item.get "lng").isUndef then
      .ok (jobj [("lat", item.get "lat"), ("lng", item.get "lng")])
    else if !(item.get "latitude").isUndef && !(item.get "longitude").isUndef then
      .ok (jobj [("lat", item.get "latitude"), ("lng", item.get "longitude")])
    else if item.isArr && item.asArray.length ≥ 2 then
      .ok (jobj [("lat", item.idx 1), ("lng", item.idx 0)])
    else
      .error "Missing or invalid coordinates"
  match coordsRes with
  | .error e => .error e
  | .ok coordinates =>
    if !validateCoordinateJs coordinates then
      .error (invalidCoordMsg coordinates)
    else
      .ok {
        id := jsOr (item.get "id") (jnum index)
        name := jsOr (item.get "name") (item.get "title")
        coordinates := coordinates
        intensity := jsOr (jsOr (item.get "intensity") (item.get "weight")) (item.get "value")
        metadata := jsOr (item.get "metadata") (item.get "properties") }

/-- Error entry `Row ${index + 1}: ${message}`. -/
def rowErr (index : ℕ) (message : String) : String :=
  let n := index + 1
  s!"Row {n}: {message}"

/-- The `rawLocations.forEach` loop of `parseJSON`: successful records are
pushed onto `locations`, a thrown record adds one error entry, in input
order. -/
def parseItems : List JsVal → ℕ → List Location × List String
  | [], _ => ([], [])
  | item :: rest, index =>
    let tail := parseItems rest (index + 1)
    match parseLocationObject item index with
    | .ok loc => (loc :: tail.1, tail.2)
    | .error msg => (tail.1, rowErr index msg :: tail.2)

/-- The accepted top-level JSON shapes: a bare array, `{locations: [...]}` or
`{data: [...]}` (each guarded by truthiness then `Array.isArray`, as in the
source). -/
def shapeArray? (data : JsVal) : Option (List JsVal) :=
  if data.isArr then some data.asArray
  else if (data.get "locations").truthy && (data.get "locations").isArr then
    some (data.get "locations").asArray
  else if (data.get "data").truthy && (data.get "data").isArr then
    some (data.get "data").asArray
  else none

/-- `FileLoader.parseJSON` (lines 322-375) over the outcome of `JSON.parse`
on the input text (`none` models a `JSON.parse` syntax error). -/
def parseJSON (parsed : Option JsVal) : FileLoadResult :=
  match parsed with
  | none =>
    { locations := [], errors := ["Invalid JSON format"]
      summary := ⟨0, 0, 1⟩ }
  | some data =>
    match shapeArray? data with
    | none =>
      { locations := []
        errors :=
          ["JSON must contain an array of locations or have a \"locations\"/\"data\" property with an array"]
        summary := ⟨0, 0, 1⟩ }
    | some rawLocations =>
      let parsedPair := parseItems rawLocations 0
      { locations := parsedPair.1
        errors := parsedPair.2
        summary :=
          ⟨(rawLocations.length : ℤ), (parsedPair.1.length : ℤ),
            (rawLocations.length : ℤ) - (parsedPair.1.length : ℤ)⟩ }

/-! ## GeoJSON parsing -/

/-- Error entry `Feature ${index + 1}: ${message}`. -/
def featureErr (index : ℕ) (message : String) : String :=
  let n := index + 1
  s!"Feature {n}: {message}"

/-- Default feature name `Point ${index + 1}`. -/
def pointName (index : ℕ) : String :=
  let n := index + 1
  s!"Point {n}"

/-- Default feature id `geojson-${index}`. -/
def geojsonId (index : ℕ) : String :=
  let n := index
  s!"geojson-{n}"

/-- `{...properties, ...(alertType && {processedAlertType: alertType})}`:
the fields of `properties` (a primitive spreads to nothing), with
`processedAlertType` appended — overriding any existing binding — when
`alertType` is truthy. -/
def spreadMetadata (properties alertType : JsVal) : JsFields :=
  let base :=
    match properties with
    | .obj fs => fs.toList
    | _ => []
  if alertType.truthy then
    JsFields.ofList ((base.filter (fun f => f.1 ≠ "processedAlertType")) ++
      [("processedAlertType", alertType)])
  else
    JsFields.ofList base

/-- The body of the per-feature loop of `parseGeoJSON` (lines 477-512).
`Except.error` carries the full error entry: the non-Point branch pushes its
message directly, the others go through the surrounding `try`/`catch`.
Destructuring a truthy non-array `coordinates` throws a TypeError, caught by
the same `catch` (message shortened to the JS phrase). -/
def parseFeature (feature : JsVal) (index : ℕ) : Except String Location :=
  if ((feature.get "geometry").get "type").eqStr "Point" &&
      ((feature.get "geometry").get "coordinates").truthy then
    match (feature.get "geometry").get "coordinates" with
    | .arr cs =>
      let lng := (cs.toList.get? 0).getD .undef
      let lat := (cs.toList.get? 1).getD .undef
      let properties := jsOr (feature.get "properties") (jobj [])
      let name :=
        jsOr (jsOr (jsOr (properties.get "name") (properties.get "title"))
          (properties.get "address"))
          (jsOr (properties.get "description") (.str (pointName index)))
      let alertType :=
        jsOr (jsOr (jsOr (properties.get "alert_type") (properties.get "alertType"))
          (properties.get "type")) (properties.get "category")
      let location : Location := {
        id := jsOr (jsOr (properties.get "id") (feature.get "id")) (.str (geojsonId index))
        name := name
        coordinates := jobj [("lat", lat), ("lng", lng)]
        intensity :=
          jsOr (jsOr (jsOr (properties.get "intensity") (properties.get "weight"))
            (properties.get "value")) (jnum (1/2))
        metadata := .obj (spreadMetadata properties alertType) }
      if validateCoordinateJs (jobj [("lat", lat), ("lng", lng)]) then
        .ok location
      else
        .error (featureErr index (invalidCoordMsg (jobj [("lat", lat), ("lng", lng)])))
    | _ => .error (featureErr index "is not iterable")
  else
    .error (featureErr index "Only Point geometries are supported")

/-- The `geoData.features.forEach` loop of `parseGeoJSON`. -/
def parseFeatures : List JsVal → ℕ → List Location × List String
  | [], _ => ([], [])
  | feature :: rest, index =>
    let tail := parseFeatures rest (index + 1)
    match parseFeature feature index with
    | .ok loc => (loc :: tail.1, tail.2)
    | .error e => (tail.1, e :: tail.2)

/-- `FileLoader.parseGeoJSON` (lines 453-523) over the `JSON.parse` outcome. -/
def parseGeoJSON (parsed : Option JsVal) : FileLoadResult :=
  match parsed with
  | none =>
    { locations := [], errors := ["Invalid GeoJSON format"]
      summary := ⟨0, 0, 1⟩ }
  | some geoData =>
    if !((geoData.get "type").eqStr "FeatureCollection") ||
        !(geoData.get "features").isArr then
      { locations := []
        errors := ["GeoJSON must be a FeatureCollection with features array"]
        summary := ⟨0, 0, 1⟩ }
    else
      let features := (geoData.get "features").asArray
      let parsedPair := parseFeatures features 0
      { locations := parsedPair.1
        errors := parsedPair.2
        summary :=
          ⟨(features.length : ℤ), (parsedPair.1.length : ℤ),
            (features.length : ℤ) - (parsedPair.1.length : ℤ)⟩ }

/-! ## CSV/TSV parsing -/

/-- CSV/TSV column mapping; optional columns default as in the source. -/
structure ColumnMapping where
  lat : String
  lng : String
  intensity : Option String
  name : Option String
  id : Option String
deriving DecidableEq

inductive SupportedFileFormat where
  | json
  | csv
  | geojson
  | tsv
deriving DecidableEq

/-- `FileLoadOptions`; the delimiter is a single character (the quote-aware
tokenizer compares it character by character, so a longer delimiter string
would never match). -/
structure FileLoadOptions where
  format : Option SupportedFileFormat
  columnMapping : Option ColumnMapping
  delimiter : Option Char
  hasHeader : Option Bool
deriving DecidableEq

/-- A single or double quote (the two quote characters the tokenizer and the
quote-stripping regex recognise; code points 34 and 39). -/
def isQuoteChar (c : Char) : Bool := c = Char.ofNat 34 || c = Char.ofNat 39

/-- Models `.replace(/^["']|["']$/g, "")`: removes one leading and one
trailing quote character. -/
def stripQuotes (s : String) : String :=
  let cs := s.toList
  let cs1 :=
    match cs with
    | c :: rest => if isQuoteChar c then rest else cs
    | [] => []
  let cs2 :=
    match cs1.getLast? with
    | some c => if isQuoteChar c then cs1.dropLast else cs1
    | none => cs1
  String.mk cs2

/-- The character scan of `parseCSVLine`: `inQuotes`/`quoteChar` state machine,
splitting on the delimiter only outside quotes (`none` models the initial
empty `quoteChar`). -/
def csvScan (delimiter : Char) : List Char → Bool → Option Char → String → List String
  | [], _, _, current => [current]
  | c :: rest, inQuotes, quoteChar, current =>
    if isQuoteChar c && !inQuotes then
      csvScan delimiter rest true (some c) current
    else if some c = quoteChar && inQuotes then
      csvScan delimiter rest false none current
    else if c = delimiter && !inQuotes then
      current :: csvScan delimiter rest inQuotes quoteChar ""
    else
      csvScan delimiter rest inQuotes quoteChar (current.push c)

/-- `FileLoader.parseCSVLine` (lines 590-615): tokenize with quote awareness,
trim each value, then strip surrounding quotes. -/
def parseCSVLine (line : String) (delimiter : Char) : List String :=
  (csvScan delimiter line.toList false none "").map (fun v => stripQuotes (jsTrim v))

/-- `values.forEach((value, index) => { if (headers[index]) rowData[...] = value })`:
the record assignments in order; a missing or empty (falsy) header drops the
value. -/
def buildRowData (headers : List String) (values : List String) : List (String × String) :=
  values.enum.filterMap (fun p =>
    match headers.get? p.1 with
    | some h => if h ≠ "" then some (h, p.2) else none
    | none => none)

/-- Record lookup `rowData[key]`: the last assignment wins, `undefined`
(modelled as `none`) when the key was never assigned. -/
def rowGet (rowData : List (String × String)) (key : String) : Option String :=
  ((rowData.filter (fun p => p.1 = key)).getLast?).map Prod.snd

/-- `parseFloat` applied to a record field that may be `undefined`
(`parseFloat(undefined)` is `NaN`). -/
def parseFloatOpt (s : Option String) : ExtNum :=
  match s with
  | some v => jsParseFloat v
  | none => .nan

/-- A possibly-missing record field as a runtime value. -/
def strOrUndef (s : Option String) : JsVal :=
  match s with
  | some v => .str v
  | none => JsVal.undef

/-- JS truthiness of a `string | undefined` option field (the empty string is
falsy). -/
def optStrTruthy (o : Option String) : Bool :=
  match o with
  | some s => decide (s ≠ "")
  | none => false

/-- Error text `Invalid coordinates: lat="...", lng="..."`. -/
def invalidCsvCoordMsg (latS lngS : Option String) : String :=
  let la := (strOrUndef latS).display
  let ln := (strOrUndef lngS).display
  s!"Invalid coordinates: lat=\"{la}\", lng=\"{ln}\""

/-- Error text `Coordinates out of range (lat, lng)`. -/
def outOfRangeMsg (lat lng : ExtNum) : String :=
  let la := lat.display
  let ln := lng.display
  s!"Coordinates out of range ({la}, {ln})"

/-- `FileLoader.parseCSVRow` (lines 560-585).  Throws are modelled as
`Except.error` with the thrown message. -/
def parseCSVRow (rowData : List (String × String)) (mapping : ColumnMapping)
    (rowNumber : ℕ) : Except String Location :=
  let latS := rowGet rowData mapping.lat
  let lngS := rowGet rowData mapping.lng
  let lat := parseFloatOpt latS
  let lng := parseFloatOpt lngS
  if lat.isNaN || lng.isNaN then
    .error (invalidCsvCoordMsg latS lngS)
  else if !validateCoordinate ⟨lat, lng⟩ then
    .error (outOfRangeMsg lat lng)
  else
    .ok {
      id :=
        match mapping.id with
        | some c => if c ≠ "" then strOrUndef (rowGet rowData c) else jnum rowNumber
        | none => jnum rowNumber
      name :=
        match mapping.name with
        | some c => if c ≠ "" then strOrUndef (rowGet rowData c) else .undef
        | none => .undef
      coordinates := jobj [("lat", .num lat), ("lng", .num lng)]
      intensity :=
        match mapping.intensity with
        | some c =>
          if c ≠ "" then
            (if (parseFloatOpt (rowGet rowData c)).truthy then
              .num (parseFloatOpt (rowGet rowData c))
            else .undef)
          else .undef
        | none => .undef
      metadata := .undef }

/-- Synthesized header `column_${i}` for headerless files. -/
def columnHeader (i : ℕ) : String :=
  let n := i
  s!"column_{n}"

/-- The data-row loop of `parseCSV` (lines 416-437): `i` is the 0-based index
of the first remaining line within the split line list; blank lines are
skipped without any accounting. -/
def processCSVLines (delimiter : Char) (headers : List String) (mapping : ColumnMapping) :
    List String → ℕ → List Location × List String
  | [], _ => ([], [])
  | l :: rest, i =>
    let tail := processCSVLines delimiter headers mapping rest (i + 1)
    let line := jsTrim l
    if line = "" then tail
    else
      match parseCSVRow (buildRowData headers (parseCSVLine line delimiter)) mapping (i + 1) with
      | .ok loc => (loc :: tail.1, tail.2)
      | .error msg => (tail.1, rowErr i msg :: tail.2)

/-- The column mapping defaulted by `parseCSV`. -/
def defaultColumnMapping : ColumnMapping :=
  ⟨"lat", "lng", some "intensity", some "name", some "id"⟩

/-- `FileLoader.parseCSV` (lines 380-448).  `text.trim().split('\n')` always
yields at least one element, so the `lines.length === 0` branch is kept but
unreachable. -/
def parseCSV (text : String) (options : FileLoadOptions) : FileLoadResult :=
  let delimiter := options.delimiter.getD ','
  let hasHeader :=
    match options.hasHeader with
    | some false => false
    | _ => true
  let columnMapping := options.columnMapping.getD defaultColumnMapping
  let lines := jsSplit (jsTrim text) (Char.ofNat 10)
  if lines.length = 0 then
    { locations := [], errors := ["File is empty"], summary := ⟨0, 0, 0⟩ }
  else
    let firstLine := (lines.get? 0).getD ""
    let headers :=
      if hasHeader then
        (jsSplit firstLine delimiter).map (fun h => stripQuotes (jsTrim h))
      else
        (List.range (jsSplit firstLine delimiter).length).map columnHeader
    let dataStartIndex : ℕ := if hasHeader then 1 else 0
    let parsedPair :=
      processCSVLines delimiter headers columnMapping (lines.drop dataStartIndex) dataStartIndex
    { locations := parsedPair.1
      errors := parsedPair.2
      summary :=
        ⟨(lines.length : ℤ) - (dataStartIndex : ℤ), (parsedPair.1.length : ℤ),
          ((lines.length : ℤ) - (dataStartIndex : ℤ)) - (parsedPair.1.length : ℤ)⟩ }

/-! ## Format detection and URL loading -/

/-- `FileLoader.detectFormat` (lines 289-305). -/
def detectFormat (filename : String) : SupportedFileFormat :=
  let extension := jsToLower (((jsSplit filename (Char.ofNat 46)).getLast?).getD "")
  if extension = "json" then .json
  else if extension = "csv" then .csv
  else if extension = "tsv" ∨ extension = "txt" then .tsv
  else if extension = "geojson" then .geojson
  else .json

/-- The outcome of the single `fetch(url)` plus reading the body.
`bodyJson` carries the `JSON.parse` outcome on the body (`JSON.parse` being a
platform primitive, not repository code). -/
inductive FetchOutcome where
  | netError (message : String)
  | response (ok : Bool) (status : ℕ) (statusText : String) (body : String)
      (bodyJson : Option JsVal)
deriving DecidableEq

/-- Error text `Failed to load from URL: HTTP ${status}: ${statusText}`. -/
def httpErrMsg (status : ℕ) (statusText : String) : String :=
  let s := toString status
  s!"Failed to load from URL: HTTP {s}: {statusText}"

/-- Error text `Failed to load from URL: ${message}`. -/
def urlFailMsg (message : String) : String := s!"Failed to load from URL: {message}"

/-- `FileLoader.loadFromUrl` (lines 248-284): the whole body sits in one
`try`/`catch`; a network failure or a thrown `HTTP ...` error for a non-ok
response is converted into a single-error result.  The `Unsupported file
format` throw is unreachable because `detectFormat` is total onto the four
formats. -/
def loadFromUrl (url : String) (options : FileLoadOptions) (fetch : FetchOutcome) :
    FileLoadResult :=
  match fetch with
  | .netError message =>
    { locations := [], errors := [urlFailMsg message], summary := ⟨0, 0, 0⟩ }
  | .response ok status statusText body bodyJson =>
    if !ok then
      { locations := [], errors := [httpErrMsg status statusText], summary := ⟨0, 0, 0⟩ }
    else
      let format := options.format.getD (detectFormat url)
      match format with
      | .json => parseJSON bodyJson
      | .csv => parseCSV body options
      | .tsv => parseCSV body { options with delimiter := some (Char.ofNat 9) }
      | .geojson => parseGeoJSON bodyJson

/-! ## Density grid (`DensityCalculator`)

The density code is purely numeric; it is modelled over exact rationals.
`NumLocation` carries the two fields the density code reads from a
`Location`: the coordinate pair and the optional `intensity`. -/

structure Coordinate where
  lat : ℚ
  lng : ℚ
deriving DecidableEq

structure NumLocation where
  coordinates : Coordinate
  intensity : Option ℚ
deriving DecidableEq

structure Bounds where
  north : ℚ
  south : ℚ
  east : ℚ
  west : ℚ
deriving DecidableEq

inductive AggregationMethod where
  | count
  | sum
  | average
deriving DecidableEq

/-- `DensityConfig`: the two fields `calculateDensityGrid` reads.  The grid
size is used as a loop bound, hence a natural number. -/
structure DensityConfig where
  gridSize : Option ℕ
  aggregationMethod : Option AggregationMethod
deriving DecidableEq

structure DensityGridCell where
  coordinates : Coordinate
  count : ℕ
  value : ℚ
  bounds : Bounds
deriving DecidableEq

/-- The filter predicate of `getLocationsInBounds` (lines 63-68): closed on
all four edges. -/
def locInBounds (location : NumLocation) (bounds : Bounds) : Bool :=
  decide (location.coordinates.lat ≥ bounds.south) &&
  decide (location.coordinates.lat ≤ bounds.north) &&
  decide (location.coordinates.lng ≥ bounds.west) &&
  decide (location.coordinates.lng ≤ bounds.east)

/-- `DensityCalculator.getLocationsInBounds`. -/
def getLocationsInBounds (locations : List NumLocation) (bounds : Bounds) :
    List NumLocation :=
  locations.filter (fun location => locInBounds location bounds)

/-- `loc.intensity || 1`: JS `||` substitutes `1` both for an absent and for a
zero intensity. -/
def intensityOrDefault (loc : NumLocation) : ℚ :=
  match loc.intensity with
  | some q => if q ≠ 0 then q else 1
  | none => 1

/-- `DensityCalculator.calculateCellValue` (lines 74-94). -/
def calculateCellValue (locations : List NumLocation) (method : AggregationMethod) : ℚ :=
  if locations.length = 0 then 0
  else
    match method with
    | .count => (locations.length : ℚ)
    | .sum => locations.foldl (fun sum loc => sum + intensityOrDefault loc) 0
    | .average =>
      (locations.foldl (fun sum loc => sum + intensityOrDefault loc) 0) /
        (locations.length : ℚ)

/-- `config.gridSize || 20` (`0` is falsy and also falls back to the default). -/
def effectiveGridSize (gridSize : Option ℕ) : ℕ :=
  match gridSize with
  | some n => if n ≠ 0 then n else 20
  | none => 20

/-- The cell rectangle for row `i`, column `j` (lines 27-32). -/
def cellBoundsOf (bounds : Bounds) (gridSize : ℕ) (i j : ℕ) : Bounds :=
  let latStep := (bounds.north - bounds.south) / (gridSize : ℚ)
  let lngStep := (bounds.east - bounds.west) / (gridSize : ℚ)
  { south := bounds.south + (i : ℚ) * latStep
    north := bounds.south + ((i : ℚ) + 1) * latStep
    west := bounds.west + (j : ℚ) * lngStep
    east := bounds.west + ((j : ℚ) + 1) * lngStep }

/-- `DensityCalculator.calculateDensityGrid` (lines 12-54): the two nested
loops in order, emitting a cell only when its aggregated value is positive. -/
def calculateDensityGrid (locations : List NumLocation) (bounds : Bounds)
    (config : DensityConfig) : List DensityGridCell :=
  let gridSize := effectiveGridSize config.gridSize
  let method := config.aggregationMethod.getD .count
  let latStep := (bounds.north - bounds.south) / (gridSize : ℚ)
  let lngStep := (bounds.east - bounds.west) / (gridSize : ℚ)
  (List.range gridSize).flatMap (fun i =>
    (List.range gridSize).filterMap (fun j =>
      let cellBounds := cellBoundsOf bounds gridSize i j
      let cellCenter : Coordinate :=
        ⟨cellBounds.south + latStep / 2, cellBounds.west + lngStep / 2⟩
      let locationsInCell := getLocationsInBounds locations cellBounds
      let cellValue := calculateCellValue locationsInCell method
      if cellValue > 0 then
        some { coordinates := cellCenter, count := locationsInCell.length
               value := cellValue, bounds := cellBounds }
      else none))

/-- The number of grid cells whose membership predicate holds for a location
(the location is selected into that many of the `gridSize × gridSize` cell
subsets). -/
def cellsContaining (location : NumLocation) (bounds : Bounds) (gridSize : ℕ) : ℕ :=
  ((List.range gridSize).flatMap (fun i =>
    (List.range gridSize).filter (fun j =>
      locInBounds location (cellBoundsOf bounds gridSize i j)))).length

/-- `DensityCalculator.getColorForDensity` (lines 128-138).  An index access
returns `none` (JS `undefined`) when out of bounds; `Math.min` clamps the
index from above only. -/
def getColorForDensity (value maxValue : ℚ) (colorScale : List String) :
    Option String :=
  if maxValue = 0 then colorScale.get? 0
  else
    let normalizedValue := value / maxValue
    let index : ℤ := ⌊normalizedValue * ((colorScale.length : ℚ) - 1)⌋
    let clamped := min index ((colorScale.length : ℤ) - 1)
    if 0 ≤ clamped then colorScale.get? clamped.toNat else none

/-- `Math.max` spread over a non-empty list. -/
def listMax1 : List ℚ → ℚ
  | [] => 0
  | x :: xs => xs.foldl max x

/-- `Math.min` spread over a non-empty list. -/
def listMin1 : List ℚ → ℚ
  | [] => 0
  | x :: xs => xs.foldl min x

/-- `DensityCalculator.calculateBounds` (lines 143-173): whole world for the
empty list, otherwise the min/max rectangle padded by 10% of each span. -/
def calculateBounds (locations : List NumLocation) : Bounds :=
  match locations with
  | [] => ⟨90, -90, 180, -180⟩
  | l :: ls =>
    let lats := (l :: ls).map (fun loc => loc.coordinates.lat)
    let lngs := (l :: ls).map (fun loc => loc.coordinates.lng)
    let north := listMax1 lats
    let south := listMin1 lats
    let east := listMax1 lngs
    let west := listMin1 lngs
    let latPadding := (north - south) * (1 / 10)
    let lngPadding := (east - west) * (1 / 10)
    ⟨north + latPadding, south - latPadding, east + lngPadding, west - lngPadding⟩

/-! ## Specification-side definitions

Definitions written from the specification's words (not from the source),
used to compare claimed behaviour with modelled behaviour. -/

/-- Claimed cell sum: each location contributes its intensity, substituting
`1` only when the intensity is absent. -/
def claimCellSum (locations : List NumLocation) : ℚ :=
  (locations.map (fun loc => loc.intensity.getD 1)).sum

/-- Claimed color lookup: the index is clamped into `[0, length - 1]` on both
sides. -/
def specColorForDensity (value maxValue : ℚ) (colorScale : List String) :
    Option String :=
  if maxValue = 0 then colorScale.get? 0
  else
    let index : ℤ := ⌊value / maxValue * ((colorScale.length : ℚ) - 1)⌋
    colorScale.get? (max 0 (min index ((colorScale.length : ℤ) - 1))).toNat

/-- Claimed intensity resolution: the first *present* field among
`intensity`, `weight`, `value` wins (presence, not truthiness). -/
def specIntensityFirstPresent (item : JsVal) : JsVal :=
  if !(item.get "intensity").isUndef then item.get "intensity"
  else if !(item.get "weight").isUndef then item.get "weight"
  else if !(item.get "value").isUndef then item.get "value"
  else JsVal.undef

/-- The GeoJSON intensity as the claim words it: first truthy of the three
property fields, `0.5` when none is truthy. -/
def firstTruthyIntensity (properties : JsVal) : JsVal :=
  if (properties.get "intensity").truthy then properties.get "intensity"
  else if (properties.get "weight").truthy then properties.get "weight"
  else if (properties.get "value").truthy then properties.get "value"
  else jnum (1 / 2)

/-- The parse outcome reached record processing in `parseJSON` (no structural
failure). -/
def jsonShapeOk (parsed : Option JsVal) : Bool :=
  match parsed with
  | some data => (shapeArray? data).isSome
  | none => false

/-- The parse outcome reached feature processing in `parseGeoJSON`. -/
def geoShapeOk (parsed : Option JsVal) : Bool :=
  match parsed with
  | some geoData =>
    (geoData.get "type").eqStr "FeatureCollection" && (geoData.get "features").isArr
  | none => false

/-- The feature list `parseGeoJSON` iterates over (empty when the outcome
cannot reach feature processing). -/
def geoFeaturesOf : Option JsVal → List JsVal
  | some geoData => (geoData.get "features").asArray
  | none => []

/-- A sample GeoJSON Point feature, used as a concrete witness input. -/
def sampleGeoFeature : JsVal :=
  jobj [("geometry", jobj [("type", .str "Point"), ("coordinates", jarr [jnum 10, jnum 20])]),
    ("properties", jobj [("intensity", jnum 2)])]

/-- The sample FeatureCollection parse outcome around `sampleGeoFeature`. -/
def sampleGeoParse : Option JsVal :=
  some (jobj [("type", .str "FeatureCollection"), ("features", jarr [sampleGeoFeature])])

/-- The Location `parseGeoJSON` extracts from `sampleGeoFeature`. -/
def sampleGeoLocation : Location :=
  ⟨.str "geojson-0", .str "Point 1", jobj [("lat", jnum 20), ("lng", jnum 10)], jnum 2,
    .obj (JsFields.ofList [("intensity", jnum 2)])⟩

/-! # Theorems -/

/-- C6: `validateCoordinate` returns true iff both components are finite
numbers (neither `NaN` nor an infinity) and `-90 ≤ lat ≤ 90`,
`-180 ≤ lng ≤ 180`. -/
theorem C6_validateCoordinate_iff (c : CoordN) :
    validateCoordinate c = true ↔
      ∃ la ln : ℚ, c.lat = .fin la ∧ c.lng = .fin ln ∧
        -90 ≤ la ∧ la ≤ 90 ∧ -180 ≤ ln ∧ ln ≤ 180 := by
  obtain ⟨lat, lng⟩ := c
  cases lat <;> cases lng <;>
    simp [validateCoordinate, ExtNum.jsGe, ExtNum.jsLe, ExtNum.isNaN, and_assoc]

/-! ## C3: cell aggregation -/

theorem foldl_add_intensity (locs : List NumLocation) (a : ℚ) :
    locs.foldl (fun sum loc => sum + intensityOrDefault loc) a =
      a + (locs.map intensityOrDefault).sum := by
  induction locs generalizing a with
  | nil => simp
  | cons l ls ih => simp [ih, add_assoc]

/-- C3 (amended): for a non-empty cell, `count` gives the number of
locations; `sum` adds each location's intensity but substitutes `1` for an
absent *or zero* intensity (JS `||`); `average` divides that sum by the
count. -/
theorem C3_cell_value_cases (locations : List NumLocation)
    (method : AggregationMethod) (h : locations ≠ []) :
    calculateCellValue locations method =
      match method with
      | .count => (locations.length : ℚ)
      | .sum => (locations.map intensityOrDefault).sum
      | .average => (locations.map intensityOrDefault).sum / (locations.length : ℚ) := by
  have hl : locations.length ≠ 0 := by simpa using h
  cases method <;> simp [calculateCellValue, hl, foldl_add_intensity]

/-- C3 witness: the spec's own example, intensities `0.2` and `0.8` average
to `0.5`. -/
theorem C3_cell_value_cases_witness :
    calculateCellValue [⟨⟨0, 0⟩, some (1/5)⟩, ⟨⟨0, 0⟩, some (4/5)⟩] .average = 1/2 := by
  have h := C3_cell_value_cases [⟨⟨0, 0⟩, some (1/5)⟩, ⟨⟨0, 0⟩, some (4/5)⟩]
    .average (by simp)
  rw [h]
  norm_num [intensityOrDefault]

/-- C3 counterexample: a single location with intensity `0` gets `sum = 1`
(JS `||` replaces the falsy `0`), not the claimed `0`. -/
theorem C3_zero_intensity_cex :
    ¬ (calculateCellValue [⟨⟨0, 0⟩, some 0⟩] .sum =
        claimCellSum [⟨⟨0, 0⟩, some 0⟩]) := by
  norm_num [calculateCellValue, intensityOrDefault, claimCellSum]

/-! ## C1: grid cell membership -/

/-- For `x` in the closed interval `[s, n]` split into `g` equal steps, some
step interval `[s + i·step, s + (i+1)·step]` with `i < g` contains `x`. -/
theorem exists_cell_index (s n x : ℚ) (g : ℕ) (hg : 1 ≤ g) (h1 : s ≤ x) (h2 : x ≤ n) :
    ∃ i : ℕ, i < g ∧ s + (i : ℚ) * ((n - s) / (g : ℚ)) ≤ x ∧
      x ≤ s + ((i : ℚ) + 1) * ((n - s) / (g : ℚ)) := by
  have hg0 : (0 : ℚ) < (g : ℚ) := by exact_mod_cast Nat.pos_of_ne_zero (by omega)
  set step : ℚ := (n - s) / (g : ℚ) with hstepdef
  have hstep0 : 0 ≤ step := div_nonneg (by linarith) hg0.le
  have htot : (g : ℚ) * step = n - s := by
    rw [hstepdef]
    field_simp
  by_cases hz : step = 0
  · refine ⟨0, by omega, ?_, ?_⟩
    · simpa using h1
    · have hns : n - s = 0 := by rw [← htot, hz]; ring
      have : n = s := by linarith
      simpa [hz] using by linarith
  · have hstep : 0 < step := lt_of_le_of_ne hstep0 (Ne.symm hz)
    have hk0 : (0 : ℤ) ≤ ⌊(x - s) / step⌋ :=
      Int.floor_nonneg.mpr (div_nonneg (by linarith) hstep.le)
    refine ⟨min ⌊(x - s) / step⌋.toNat (g - 1), by omega, ?_, ?_⟩
    · have h3 : ((min ⌊(x - s) / step⌋.toNat (g - 1) : ℕ) : ℚ) ≤ (x - s) / step := by
        have : ((min ⌊(x - s) / step⌋.toNat (g - 1) : ℕ) : ℚ) ≤
            (⌊(x - s) / step⌋.toNat : ℚ) := by
          exact_mod_cast Nat.min_le_left _ _
        calc ((min ⌊(x - s) / step⌋.toNat (g - 1) : ℕ) : ℚ)
            ≤ (⌊(x - s) / step⌋.toNat : ℚ) := this
          _ = ((⌊(x - s) / step⌋ : ℤ) : ℚ) := by
              exact_mod_cast congrArg Int.cast (Int.toNat_of_nonneg hk0)
          _ ≤ (x - s) / step := Int.floor_le _
      have := (le_div_iff₀ hstep).mp h3
      linarith
    · rcases le_or_lt ⌊(x - s) / step⌋.toNat (g - 1) with hle | hlt
      · have hmin : min ⌊(x - s) / step⌋.toNat (g - 1) = ⌊(x - s) / step⌋.toNat :=
          Nat.min_eq_left hle
        rw [hmin]
        have hfl : (x - s) / step < (⌊(x - s) / step⌋ : ℚ) + 1 := Int.lt_floor_add_one _
        have hcast : ((⌊(x - s) / step⌋.toNat : ℕ) : ℚ) = ((⌊(x - s) / step⌋ : ℤ) : ℚ) := by
          exact_mod_cast congrArg Int.cast (Int.toNat_of_nonneg hk0)
        have := (div_lt_iff₀ hstep).mp hfl
        rw [hcast]
        nlinarith
      · have hmin : min ⌊(x - s) / step⌋.toNat (g - 1) = g - 1 :=
          Nat.min_eq_right hlt.le
        rw [hmin]
        have hcast : ((g - 1 : ℕ) : ℚ) = (g : ℚ) - 1 := by
          have : (1 : ℕ) ≤ g := hg
          push_cast [Nat.cast_sub this]
          ring
        rw [hcast]
        have : ((g : ℚ) - 1 + 1) * step = n - s := by rw [← htot]; ring
        linarith

/-- C1 (amended): every location lying within the requested bounds (closed)
is selected into the location subset of *at least one* of the
`gridSize × gridSize` cells; membership is closed on both edges, so a
location on a shared interior edge belongs to every adjacent cell rather
than exactly one. -/
theorem C1_location_in_some_cell (locations : List NumLocation) (bounds : Bounds)
    (g : ℕ) (loc : NumLocation) (hg : 1 ≤ g) (hmem : loc ∈ locations)
    (hlat1 : bounds.south ≤ loc.coordinates.lat)
    (hlat2 : loc.coordinates.lat ≤ bounds.north)
    (hlng1 : bounds.west ≤ loc.coordinates.lng)
    (hlng2 : loc.coordinates.lng ≤ bounds.east) :
    ∃ i j : ℕ, i < g ∧ j < g ∧
      loc ∈ getLocationsInBounds locations (cellBoundsOf bounds g i j) := by
  obtain ⟨i, hi, hi1, hi2⟩ :=
    exists_cell_index bounds.south bounds.north loc.coordinates.lat g hg hlat1 hlat2
  obtain ⟨j, hj, hj1, hj2⟩ :=
    exists_cell_index bounds.west bounds.east loc.coordinates.lng g hg hlng1 hlng2
  refine ⟨i, j, hi, hj, ?_⟩
  simp only [getLocationsInBounds, List.mem_filter, locInBounds, cellBoundsOf,
    Bool.and_eq_true, decide_eq_true_eq]
  exact ⟨hmem, ⟨⟨⟨hi1, hi2⟩, hj1⟩, hj2⟩⟩

/-- C1 witness: a concrete in-bounds location is selected into some cell of a
2×2 grid. -/
theorem C1_location_in_some_cell_witness :
    ∃ i j : ℕ, i < 2 ∧ j < 2 ∧
      (⟨⟨2, 1⟩, none⟩ : NumLocation) ∈ getLocationsInBounds [⟨⟨2, 1⟩, none⟩]
        (cellBoundsOf ⟨4, 0, 4, 0⟩ 2 i j) :=
  C1_location_in_some_cell [⟨⟨2, 1⟩, none⟩] ⟨4, 0, 4, 0⟩ 2 ⟨⟨2, 1⟩, none⟩
    (by norm_num) (by simp) (by norm_num) (by norm_num) (by norm_num) (by norm_num)

/-- C1 counterexample: the location `(2, 1)` lies on the shared interior
latitude edge of a 2×2 grid over `[0,4] × [0,4]`; it is selected into the
subsets of *two* cells (membership is closed, not half-open), and the grid
emitted by `calculateDensityGrid` counts it in both cells. -/
theorem C1_shared_edge_two_cells :
    ¬ (cellsContaining ⟨⟨2, 1⟩, none⟩ ⟨4, 0, 4, 0⟩ 2 = 1) ∧
    (calculateDensityGrid [⟨⟨2, 1⟩, none⟩] ⟨4, 0, 4, 0⟩ ⟨some 2, some .count⟩).map
      DensityGridCell.count = [1, 1] := by
  have h00 : locInBounds ⟨⟨2, 1⟩, none⟩ (cellBoundsOf ⟨4, 0, 4, 0⟩ 2 0 0) = true := by
    simp only [locInBounds, cellBoundsOf, Bool.and_eq_true, decide_eq_true_eq]
    norm_num
  have h01 : locInBounds ⟨⟨2, 1⟩, none⟩ (cellBoundsOf ⟨4, 0, 4, 0⟩ 2 0 1) = false := by
    simp only [locInBounds, cellBoundsOf, Bool.and_eq_false_iff,
      decide_eq_false_iff_not, decide_eq_true_eq]
    norm_num
  have h10 : locInBounds ⟨⟨2, 1⟩, none⟩ (cellBoundsOf ⟨4, 0, 4, 0⟩ 2 1 0) = true := by
    simp only [locInBounds, cellBoundsOf, Bool.and_eq_true, decide_eq_true_eq]
    norm_num
  have h11 : locInBounds ⟨⟨2, 1⟩, none⟩ (cellBoundsOf ⟨4, 0, 4, 0⟩ 2 1 1) = false := by
    simp only [locInBounds, cellBoundsOf, Bool.and_eq_false_iff,
      decide_eq_false_iff_not, decide_eq_true_eq]
    norm_num
  constructor
  · simp [cellsContaining, List.range_succ, h00, h01, h10, h11]
  · simp [calculateDensityGrid, effectiveGridSize, getLocationsInBounds,
      calculateCellValue, List.range_succ, h00, h01, h10, h11]

/-! ## C7: color scale lookup -/

/-- C7 (amended): `maxValue == 0` always yields the first scale entry; for
`maxValue ≠ 0` the index `⌊(value/maxValue)·(len−1)⌋` is clamped from above
only — when it is non-negative the result agrees with the claimed
both-sides-clamped lookup, but a negative index is not clamped to `0` and the
access is out of bounds (`undefined`). -/
theorem C7_color_cases (value maxValue : ℚ) (colorScale : List String) :
    (maxValue = 0 → getColorForDensity value maxValue colorScale = colorScale.get? 0) ∧
    (maxValue ≠ 0 → 0 ≤ ⌊value / maxValue * ((colorScale.length : ℚ) - 1)⌋ →
      getColorForDensity value maxValue colorScale =
        specColorForDensity value maxValue colorScale) ∧
    (maxValue ≠ 0 → ⌊value / maxValue * ((colorScale.length : ℚ) - 1)⌋ < 0 →
      getColorForDensity value maxValue colorScale = none) := by
  refine ⟨?_, ?_, ?_⟩
  · intro h
    simp [getColorForDensity, h]
  · intro h hidx
    simp only [getColorForDensity, specColorForDensity, if_neg h]
    rcases Nat.eq_zero_or_pos colorScale.length with hlen | hlen
    · have hempty : colorScale = [] := List.length_eq_zero.mp hlen
      subst hempty
      have hmin : min ⌊value / maxValue * (((0 : ℕ) : ℚ) - 1)⌋ (((0 : ℕ) : ℤ) - 1) ≤ -1 := by
        have := min_le_right ⌊value / maxValue * (((0 : ℕ) : ℚ) - 1)⌋ (((0 : ℕ) : ℤ) - 1)
        omega
      simp only [List.length_nil]
      rw [if_neg (by omega)]
      simp
    · have hl1 : (1 : ℤ) ≤ (colorScale.length : ℤ) := by exact_mod_cast hlen
      have hclamped : 0 ≤ min ⌊value / maxValue * ((colorScale.length : ℚ) - 1)⌋
          ((colorScale.length : ℤ) - 1) := le_min hidx (by omega)
      rw [if_pos hclamped]
      congr 1
      omega
  · intro h hidx
    simp only [getColorForDensity, if_neg h]
    have hmin : min ⌊value / maxValue * ((colorScale.length : ℚ) - 1)⌋
        ((colorScale.length : ℤ) - 1) ≤
          ⌊value / maxValue * ((colorScale.length : ℚ) - 1)⌋ :=
      min_le_left _ _
    rw [if_neg (by omega)]

/-- C7 witness: `value = 5`, `maxValue = 10`, a 3-entry scale: index
`⌊0.5·2⌋ = 1` selects the middle entry. -/
theorem C7_color_cases_witness :
    getColorForDensity 5 10 ["a", "b", "c"] = some "b" := by
  have hidx : ⌊(5 : ℚ) / 10 * (((["a", "b", "c"].length : ℕ) : ℚ) - 1)⌋ = 1 := by
    norm_num
  have h := (C7_color_cases 5 10 ["a", "b", "c"]).2.1 (by norm_num) (by rw [hidx]; omega)
  rw [h]
  simp only [specColorForDensity, if_neg (by norm_num : ¬ (10 : ℚ) = 0)]
  norm_num

/-- C7 counterexample: a negative value gives index `-1`, which `Math.min`
does not clamp from below: the code returns `undefined` where the claim
promises the clamped `colorScale[0]`. -/
theorem C7_negative_value_cex :
    ¬ (getColorForDensity (-1) 1 ["a", "b"] = specColorForDensity (-1) 1 ["a", "b"]) := by
  simp only [getColorForDensity, specColorForDensity]
  norm_num
  simp

/-! ## C10: bounds calculation -/

theorem le_foldl_max (xs : List ℚ) (a : ℚ) : a ≤ xs.foldl max a := by
  induction xs generalizing a with
  | nil => simp
  | cons x xs ih => exact le_trans (le_max_left a x) (ih (max a x))

theorem mem_le_foldl_max (xs : List ℚ) : ∀ (a x : ℚ), x ∈ xs → x ≤ xs.foldl max a := by
  induction xs with
  | nil =>
    intro a x hx
    cases hx
  | cons y ys ih =>
    intro a x hx
    rcases List.mem_cons.mp hx with h | h
    · subst h
      exact le_trans (le_max_right a x) (le_foldl_max ys (max a x))
    · exact ih (max a y) x h

theorem foldl_min_le (xs : List ℚ) (a : ℚ) : xs.foldl min a ≤ a := by
  induction xs generalizing a with
  | nil => simp
  | cons x xs ih => exact le_trans (ih (min a x)) (min_le_left a x)

theorem foldl_min_le_mem (xs : List ℚ) : ∀ (a x : ℚ), x ∈ xs → xs.foldl min a ≤ x := by
  induction xs with
  | nil =>
    intro a x hx
    cases hx
  | cons y ys ih =>
    intro a x hx
    rcases List.mem_cons.mp hx with h | h
    · subst h
      exact le_trans (foldl_min_le ys (min a x)) (min_le_right a x)
    · exact ih (min a y) x h

theorem mem_le_listMax1 (xs : List ℚ) (x : ℚ) (hx : x ∈ xs) : x ≤ listMax1 xs := by
  cases xs with
  | nil => cases hx
  | cons y ys =>
    rcases List.mem_cons.mp hx with h | h
    · subst h
      exact le_foldl_max ys x
    · exact mem_le_foldl_max ys y x h

theorem listMin1_le_mem (xs : List ℚ) (x : ℚ) (hx : x ∈ xs) : listMin1 xs ≤ x := by
  cases xs with
  | nil => cases hx
  | cons y ys =>
    rcases List.mem_cons.mp hx with h | h
    · subst h
      exact foldl_min_le ys x
    · exact foldl_min_le_mem ys y x h

/-- C10: `calculateBounds` returns the whole-world rectangle on the empty
list; every input location lies within the returned bounds; and on a
non-empty list the result is exactly the min/max rectangle expanded on each
side by 10% of the corresponding span. -/
theorem C10_calculateBounds :
    calculateBounds [] = ⟨90, -90, 180, -180⟩ ∧
    (∀ (locations : List NumLocation) (loc : NumLocation), loc ∈ locations →
      (calculateBounds locations).south ≤ loc.coordinates.lat ∧
      loc.coordinates.lat ≤ (calculateBounds locations).north ∧
      (calculateBounds locations).west ≤ loc.coordinates.lng ∧
      loc.coordinates.lng ≤ (calculateBounds locations).east) ∧
    (∀ (l : NumLocation) (ls : List NumLocation),
      calculateBounds (l :: ls) =
        { north := listMax1 ((l :: ls).map fun loc => loc.coordinates.lat) +
            (listMax1 ((l :: ls).map fun loc => loc.coordinates.lat) -
              listMin1 ((l :: ls).map fun loc => loc.coordinates.lat)) * (1 / 10)
          south := listMin1 ((l :: ls).map fun loc => loc.coordinates.lat) -
            (listMax1 ((l :: ls).map fun loc => loc.coordinates.lat) -
              listMin1 ((l :: ls).map fun loc => loc.coordinates.lat)) * (1 / 10)
          east := listMax1 ((l :: ls).map fun loc => loc.coordinates.lng) +
            (listMax1 ((l :: ls).map fun loc => loc.coordinates.lng) -
              listMin1 ((l :: ls).map fun loc => loc.coordinates.lng)) * (1 / 10)
          west := listMin1 ((l :: ls).map fun loc => loc.coordinates.lng) -
            (listMax1 ((l :: ls).map fun loc => loc.coordinates.lng) -
              listMin1 ((l :: ls).map fun loc => loc.coordinates.lng)) * (1 / 10) }) := by
  refine ⟨rfl, ?_, fun l ls => rfl⟩
  intro locations loc hmem
  cases locations with
  | nil => cases hmem
  | cons l ls =>
    have hlat : loc.coordinates.lat ∈ (l :: ls).map (fun loc => loc.coordinates.lat) :=
      List.mem_map_of_mem _ hmem
    have hlng : loc.coordinates.lng ∈ (l :: ls).map (fun loc => loc.coordinates.lng) :=
      List.mem_map_of_mem _ hmem
    have h1 := mem_le_listMax1 _ _ hlat
    have h2 := listMin1_le_mem _ _ hlat
    have h3 := mem_le_listMax1 _ _ hlng
    have h4 := listMin1_le_mem _ _ hlng
    have hpad1 : 0 ≤ (listMax1 ((l :: ls).map fun loc => loc.coordinates.lat) -
        listMin1 ((l :: ls).map fun loc => loc.coordinates.lat)) * (1 / 10) :=
      mul_nonneg (by linarith) (by norm_num)
    have hpad2 : 0 ≤ (listMax1 ((l :: ls).map fun loc => loc.coordinates.lng) -
        listMin1 ((l :: ls).map fun loc => loc.coordinates.lng)) * (1 / 10) :=
      mul_nonneg (by linarith) (by norm_num)
    simp only [calculateBounds]
    refine ⟨by linarith, by linarith, by linarith, by linarith⟩

/-- C10 witness: a concrete singleton list; its location lies inside the
padded bounds. -/
theorem C10_calculateBounds_witness :
    (calculateBounds [⟨⟨3, 7⟩, none⟩]).south ≤
      (⟨⟨3, 7⟩, none⟩ : NumLocation).coordinates.lat ∧
    (⟨⟨3, 7⟩, none⟩ : NumLocation).coordinates.lat ≤
      (calculateBounds [⟨⟨3, 7⟩, none⟩]).north ∧
    (calculateBounds [⟨⟨3, 7⟩, none⟩]).west ≤
      (⟨⟨3, 7⟩, none⟩ : NumLocation).coordinates.lng ∧
    (⟨⟨3, 7⟩, none⟩ : NumLocation).coordinates.lng ≤
      (calculateBounds [⟨⟨3, 7⟩, none⟩]).east :=
  C10_calculateBounds.2.1 [⟨⟨3, 7⟩, none⟩] ⟨⟨3, 7⟩, none⟩ (by simp)

/-! ## C2: load-result summary invariants -/

/-- C2 (amended): `validLocations = locations.length` holds for every parse
outcome of `parseJSON` and `parseGeoJSON`; `invalidRows = totalRows −
validLocations` holds whenever the input is structurally parseable, while the
structural-failure results fix `invalidRows = 1` with `totalRows = 0`,
breaking that equality. -/
theorem C2_summary_invariants (pj pg : Option JsVal) :
    ((parseJSON pj).summary.validLocations = ((parseJSON pj).locations.length : ℤ)) ∧
    ((parseGeoJSON pg).summary.validLocations = ((parseGeoJSON pg).locations.length : ℤ)) ∧
    (jsonShapeOk pj = true →
      (parseJSON pj).summary.invalidRows =
        (parseJSON pj).summary.totalRows - (parseJSON pj).summary.validLocations) ∧
    (geoShapeOk pg = true →
      (parseGeoJSON pg).summary.invalidRows =
        (parseGeoJSON pg).summary.totalRows - (parseGeoJSON pg).summary.validLocations) := by
  refine ⟨?_, ?_, ?_, ?_⟩
  · cases pj with
    | none => rfl
    | some d =>
      simp only [parseJSON]
      cases h : shapeArray? d with
      | none => rfl
      | some raw => rfl
  · cases pg with
    | none => rfl
    | some g =>
      simp only [parseGeoJSON]
      split
      · rfl
      · rfl
  · intro hok
    cases pj with
    | none => simp [jsonShapeOk] at hok
    | some d =>
      simp only [jsonShapeOk, Option.isSome_iff_exists] at hok
      obtain ⟨raw, hraw⟩ := hok
      simp [parseJSON, hraw]
  · intro hok
    cases pg with
    | none => simp [geoShapeOk] at hok
    | some g =>
      rw [geoShapeOk, Bool.and_eq_true] at hok
      simp [parseGeoJSON, hok.1, hok.2]

/-- C2 witness: a parseable empty JSON array and an empty FeatureCollection
satisfy both summary equalities. -/
theorem C2_summary_invariants_witness :
    (parseJSON (some (jarr []))).summary.invalidRows =
      (parseJSON (some (jarr []))).summary.totalRows -
        (parseJSON (some (jarr []))).summary.validLocations ∧
    (parseGeoJSON (some (jobj [("type", .str "FeatureCollection"),
        ("features", jarr [])]))).summary.invalidRows =
      (parseGeoJSON (some (jobj [("type", .str "FeatureCollection"),
          ("features", jarr [])]))).summary.totalRows -
        (parseGeoJSON (some (jobj [("type", .str "FeatureCollection"),
            ("features", jarr [])]))).summary.validLocations :=
  ⟨(C2_summary_invariants (some (jarr [])) none).2.2.1 (by decide),
    (C2_summary_invariants none (some (jobj [("type", .str "FeatureCollection"),
      ("features", jarr [])]))).2.2.2 (by decide)⟩

/-- C2 counterexample: the structural-failure result of `parseJSON` (input
that `JSON.parse` rejects) has `invalidRows = 1` but
`totalRows − validLocations = 0`. -/
theorem C2_structural_failure_cex :
    ¬ ((parseJSON none).summary.invalidRows =
        (parseJSON none).summary.totalRows - (parseJSON none).summary.validLocations) := by
  decide

/-! ## C4: JSON intensity precedence -/

theorem jsOr_chain (a b c : JsVal) :
    jsOr (jsOr a b) c = if a.truthy then a else if b.truthy then b else c := by
  simp only [jsOr]
  by_cases ha : a.truthy <;> by_cases hb : b.truthy <;> simp [ha, hb]

/-- C4 (amended): whenever `parseLocationObject` produces a Location, its
intensity is the first *truthy* (not merely present) of the record's
`intensity`, `weight`, `value` fields; when none is truthy the raw `value`
field is kept (so a present-but-zero `intensity` is skipped, and the result
is absent exactly when the fallthrough `value` is absent). -/
theorem C4_intensity_first_truthy (item : JsVal) (index : ℕ) (loc : Location)
    (h : parseLocationObject item index = .ok loc) :
    loc.intensity =
      if (item.get "intensity").truthy then item.get "intensity"
      else if (item.get "weight").truthy then item.get "weight"
      else item.get "value" := by
  rw [← jsOr_chain]
  unfold parseLocationObject at h
  split at h
  · dsimp only at h
    split at h
    · simp at h
    · rw [Except.ok.injEq] at h
      subst h
      rfl
  · split at h
    · dsimp only at h
      split at h
      · simp at h
      · rw [Except.ok.injEq] at h
        subst h
        rfl
    · split at h
      · dsimp only at h
        split at h
        · simp at h
        · rw [Except.ok.injEq] at h
          subst h
          rfl
      · split at h
        · dsimp only at h
          split at h
          · simp at h
          · rw [Except.ok.injEq] at h
            subst h
            rfl
        · simp at h

/-- C4 witness: a record with only a `weight` field yields that weight as the
intensity. -/
theorem C4_intensity_first_truthy_witness :
    (⟨jnum 0, .undef, jobj [("lat", jnum 1), ("lng", jnum 1)], jnum 3, .undef⟩ :
        Location).intensity =
      if ((jobj [("lat", jnum 1), ("lng", jnum 1), ("weight", jnum 3)]).get
          "intensity").truthy then
        (jobj [("lat", jnum 1), ("lng", jnum 1), ("weight", jnum 3)]).get "intensity"
      else if ((jobj [("lat", jnum 1), ("lng", jnum 1), ("weight", jnum 3)]).get
          "weight").truthy then
        (jobj [("lat", jnum 1), ("lng", jnum 1), ("weight", jnum 3)]).get "weight"
      else (jobj [("lat", jnum 1), ("lng", jnum 1), ("weight", jnum 3)]).get "value" :=
  C4_intensity_first_truthy (jobj [("lat", jnum 1), ("lng", jnum 1), ("weight", jnum 3)]) 0
    ⟨jnum 0, .undef, jobj [("lat", jnum 1), ("lng", jnum 1)], jnum 3, .undef⟩ rfl

/-- C4 counterexample: with `intensity: 0` present and `weight: 5`, the
produced intensity is `5` — the claimed first-present rule would give `0`. -/
theorem C4_zero_intensity_cex :
    ¬ ((parseLocationObject (jobj [("lat", jnum 1), ("lng", jnum 1),
          ("intensity", jnum 0), ("weight", jnum 5)]) 0).toOption.map
        Location.intensity =
      some (specIntensityFirstPresent (jobj [("lat", jnum 1), ("lng", jnum 1),
        ("intensity", jnum 0), ("weight", jnum 5)]))) := by
  decide

/-! ## C5: parseCSV on the empty file -/

/-- C5: evaluating `parseCSV` on the empty input.  `''.trim().split('\n')` is
`['']`, never the empty array, so the `File is empty` single-error branch is
unreachable: the result has an empty location list, *no* error entry, and an
all-zero summary. -/
theorem C5_parseCSV_empty_eval :
    parseCSV "" ⟨none, none, none, none⟩ =
      { locations := [], errors := [], summary := ⟨0, 0, 0⟩ } := by
  decide

/-! ## C8: loadFromUrl failure handling -/

/-- C8: whenever the single fetch yields a network failure or a non-success
response, `loadFromUrl` resolves to a LoadResult with zero locations and
exactly one error entry — the failure never propagates. -/
theorem C8_loadFromUrl_failure (url : String) (options : FileLoadOptions)
    (fetch : FetchOutcome)
    (h : (∃ m, fetch = .netError m) ∨
      ∃ st stx b bj, fetch = .response false st stx b bj) :
    (loadFromUrl url options fetch).locations = [] ∧
    (loadFromUrl url options fetch).errors.length = 1 := by
  rcases h with ⟨m, rfl⟩ | ⟨st, stx, b, bj, rfl⟩
  · exact ⟨rfl, rfl⟩
  · simp [loadFromUrl]

/-- C8 witness: a concrete network error produces the single-error result. -/
theorem C8_loadFromUrl_failure_witness :
    (loadFromUrl "data.json" ⟨none, none, none, none⟩
      (.netError "timeout")).locations = [] ∧
    (loadFromUrl "data.json" ⟨none, none, none, none⟩
      (.netError "timeout")).errors.length = 1 :=
  C8_loadFromUrl_failure "data.json" ⟨none, none, none, none⟩ (.netError "timeout")
    (Or.inl ⟨"timeout", rfl⟩)

/-! ## C9: GeoJSON intensity is always defined -/

theorem geo_intensity_chain (props : JsVal) :
    jsOr (jsOr (jsOr (props.get "intensity") (props.get "weight")) (props.get "value"))
      (jnum (1/2)) = firstTruthyIntensity props := by
  have hhalf : (jnum (1/2)).truthy = true := by
    norm_num [jnum, JsVal.truthy, ExtNum.truthy]
  simp only [jsOr, firstTruthyIntensity]
  by_cases h1 : (props.get "intensity").truthy <;>
    by_cases h2 : (props.get "weight").truthy <;>
      by_cases h3 : (props.get "value").truthy <;>
        simp [h1, h2, h3, hhalf]

theorem firstTruthyIntensity_ne_undef (props : JsVal) :
    firstTruthyIntensity props ≠ .undef := by
  unfold firstTruthyIntensity
  split_ifs with h1 h2 h3
  · intro hc
    rw [hc] at h1
    simp [JsVal.truthy] at h1
  · intro hc
    rw [hc] at h2
    simp [JsVal.truthy] at h2
  · intro hc
    rw [hc] at h3
    simp [JsVal.truthy] at h3
  · simp [jnum]

theorem parseFeature_ok_intensity (feature : JsVal) (i : ℕ) (loc : Location)
    (h : parseFeature feature i = .ok loc) :
    loc.intensity =
      firstTruthyIntensity (jsOr (feature.get "properties") (jobj [])) := by
  unfold parseFeature at h
  split at h
  · split at h
    · dsimp only at h
      split at h
      · rw [Except.ok.injEq] at h
        subst h
        exact geo_intensity_chain _
      · simp at h
    · simp at h
  · simp at h

theorem parseFeatures_mem (fs : List JsVal) : ∀ (idx : ℕ) (loc : Location),
    loc ∈ (parseFeatures fs idx).1 → ∃ f ∈ fs, ∃ i, parseFeature f i = .ok loc := by
  induction fs with
  | nil =>
    intro idx loc h
    simp [parseFeatures] at h
  | cons f rest ih =>
    intro idx loc h
    simp only [parseFeatures] at h
    cases hf : parseFeature f idx with
    | ok l =>
      rw [hf] at h
      dsimp only at h
      rcases List.mem_cons.mp h with rfl | h2
      · exact ⟨f, by simp, idx, hf⟩
      · obtain ⟨g, hg, i, hgi⟩ := ih (idx + 1) loc h2
        exact ⟨g, by simp [hg], i, hgi⟩
    | error e =>
      rw [hf] at h
      dsimp only at h
      obtain ⟨g, hg, i, hgi⟩ := ih (idx + 1) loc h
      exact ⟨g, by simp [hg], i, hgi⟩

/-- C9: every Location produced by `parseGeoJSON` has a defined (truthy or
`0.5`) intensity: the first truthy of the feature's `properties.intensity`,
`properties.weight`, `properties.value`, defaulting to `0.5` when none is
truthy — never `undefined`; by contrast the JSON record extractor can
produce an absent intensity. -/
theorem C9_geojson_intensity (parsed : Option JsVal) (loc : Location)
    (h : loc ∈ (parseGeoJSON parsed).locations) :
    loc.intensity ≠ .undef ∧
    (∃ feature ∈ geoFeaturesOf parsed,
      loc.intensity = firstTruthyIntensity (jsOr (feature.get "properties") (jobj []))) ∧
    (∃ (item : JsVal) (jloc : Location),
      parseLocationObject item 0 = .ok jloc ∧ jloc.intensity = .undef) := by
  have hjson : ∃ (item : JsVal) (jloc : Location),
      parseLocationObject item 0 = .ok jloc ∧ jloc.intensity = .undef :=
    ⟨jobj [("lat", jnum 1), ("lng", jnum 1)],
      ⟨jnum 0, .undef, jobj [("lat", jnum 1), ("lng", jnum 1)], .undef, .undef⟩,
      rfl, rfl⟩
  cases parsed with
  | none => simp [parseGeoJSON] at h
  | some g =>
    simp only [parseGeoJSON] at h
    split at h
    · simp at h
    · dsimp only at h
      obtain ⟨f, hf, i, hok⟩ := parseFeatures_mem _ _ _ h
      have hint := parseFeature_ok_intensity f i loc hok
      refine ⟨?_, ⟨f, by simpa [geoFeaturesOf] using hf, hint⟩, hjson⟩
      rw [hint]
      exact firstTruthyIntensity_ne_undef _

/-- C9 witness: the sample feature with `intensity: 2` is extracted with
that (truthy, defined) intensity. -/
theorem C9_geojson_intensity_witness :
    sampleGeoLocation.intensity ≠ .undef ∧
    (∃ feature ∈ geoFeaturesOf sampleGeoParse,
      sampleGeoLocation.intensity =
        firstTruthyIntensity (jsOr (feature.get "properties") (jobj []))) ∧
    (∃ (item : JsVal) (jloc : Location),
      parseLocationObject item 0 = .ok jloc ∧ jloc.intensity = .undef) :=
  C9_geojson_intensity sampleGeoParse sampleGeoLocation (by decide)

end MapVis
